import Mathlib

/-!
The operator `CubWhereOp` of jittor (`src/extern/cuda/cub/ops/cub_where_op.cc`).

A shallow embedding of the operator that lists the coordinates of the non-zero
elements of an array, and proofs of its contract.

Conventions of the embedding.

* Machine integers are mathematical integers; every conversion to a fixed-width
  signed type is written `wrapS w`.  C `int` has 32 bits.  The two types the JIT
  substitutes in the kernel source, `To` (element type of the outputs) and
  `index_t`, are not declared in the file; their widths are the parameters
  `JitTypes.toBits` and `JitTypes.idxBits`.  An addition that leaves the range of
  `index_t` wraps around.
* The element type `Ti` of the condition is any type with a zero and a decidable
  equality; the condition is the list of its elements in row-major order, and
  `cond->num` is the length of that list.
* Device buffers of the output variables form a memory `Mem`: buffer number and
  slot number to value.  A pointer argument of the kernel is a buffer number, so
  that two pointer arguments alias exactly when the numbers are equal.  Output
  `j` owns buffer `j`.
* The CUB primitives (`cub::DeviceReduce::Sum`, `cub::DeviceSelect::Flagged`,
  `cub::TransformInputIterator`, `cub::CountingInputIterator`) belong to an
  external library; they are given by their documented input/output behaviour.
  The two-phase scratch protocol (size query, allocation, call, release) does not
  change what they compute and is left out.
* The threads of a kernel launch are run one after the other, block by block;
  each thread runs its `for` loop with a fuel bound, and the run has no result
  when the fuel is exhausted.

Ranges.  The theorems about a run carry, as hypotheses, which values fit which
type: the element count `N` fits `int` (`int N = cond->num`), the indices
`0 .. N-1` fit `To`, and the loop counter of `where_kernel`, which reaches
values below `2 * N` before the loop test fails, fits `index_t`.
-/

namespace CubWhere

/-! ## Machine integers and memory -/

/-- Conversion of the integer `x` to a signed two's complement type of `w` bits. -/
def wrapS (w : Nat) (x : Int) : Int :=
  (x + 2 ^ w / 2) % 2 ^ w - 2 ^ w / 2

/-- Number of bits of the C type `int`. -/
def intBits : Nat := 32

/-- Widths of the two integer types substituted by the JIT: `To` and `index_t`. -/
structure JitTypes where
  toBits : Nat
  idxBits : Nat

/-- Device memory of the output variables: buffer number, slot, value. -/
structure Mem where
  read : Nat → Int → Int

/-- Store `v` in slot `i` of buffer `b`. -/
def Mem.write (m : Mem) (b : Nat) (i : Int) (v : Int) : Mem :=
  ⟨fun b1 i1 => if b1 = b ∧ i1 = i then v else m.read b1 i1⟩

/-- Store the values `xs` in slots `0, 1, ...` of buffer `b`. -/
def Mem.writeList (m : Mem) (b : Nat) (xs : List Int) : Mem :=
  ⟨fun b1 i1 =>
    if b1 = b ∧ 0 ≤ i1 ∧ i1.toNat < xs.length then xs.getD i1.toNat 0 else m.read b1 i1⟩

/-! ## Functors and CUB primitives -/

/-- The functor `NonZeroOp<T>::operator()`: `a != T(0)`. -/
def NonZeroOp {T : Type} [Zero T] [DecidableEq T] (a : T) : Bool :=
  a != 0

/-- The iterator `cub::TransformInputIterator<bool, NonZeroOp<Ti>, Ti*>` over the data of `cond`:
item `i` is `NonZeroOp` of element `i`. -/
def nonzero_itr {T : Type} [Zero T] [DecidableEq T] (cond : List T) (i : Nat) : Bool :=
  NonZeroOp (cond.getD i 0)

/-- The iterator `cub::CountingInputIterator<To>(0)`: item `i` is `To(0) + i`. -/
def counting_itr (ty : JitTypes) (i : Nat) : Int :=
  wrapS ty.toBits (0 + (i : Int))

/-- The primitive `cub::DeviceReduce::Sum` of the first `num_items` items of a `bool` iterator into an
`int`: the items are added up as `int` values. -/
def DeviceReduce_Sum (d_in : Nat → Bool) (num_items : Int) : Int :=
  wrapS intBits (((List.range num_items.toNat).map (fun i => if d_in i then (1 : Int) else 0)).sum)

/-- The primitive `cub::DeviceSelect::Flagged` on the first `num_items` items: the items whose flag is
set, in their order.  They are what is written to `d_out`; their number is what is written
to `d_num_selected_out`. -/
def DeviceSelect_Flagged (d_in : Nat → Int) (d_flags : Nat → Bool) (num_items : Int) : List Int :=
  ((List.range num_items.toNat).filter d_flags).map d_in

/-! ## `where_kernel` -/

/-- The statements generated by `@for(j, NDIM-1, 0, -1, ...)` for element `i`; the list
holds `(shape_j, out_j)` for `j = NDIM-1` down to `1`.  Returns the final `x` and the
memory. -/
def where_digits (ty : JitTypes) (i : Int) : List (Int × Nat) → Int → Mem → Int × Mem
  | [], x, mem => (x, mem)
  | (shape_j, out_j) :: rest, x, mem =>
      let i_j := wrapS ty.idxBits (Int.tmod x shape_j)
      let mem1 := mem.write out_j i (wrapS ty.toBits i_j)
      where_digits ty i rest (wrapS ty.idxBits (Int.tdiv x shape_j)) mem1

/-- Body of the `for` loop of `where_kernel` at index `i`.  `dims` holds `(shape_j, out_j)`
for `j = 1 .. NDIM-1`; `shape_0` is not used by the kernel. -/
def where_body (ty : JitTypes) (input : Nat) (_shape_0 : Int) (out_0 : Nat)
    (dims : List (Int × Nat)) (i : Int) (mem : Mem) : Mem :=
  let x := wrapS ty.idxBits (mem.read input i)
  let r := where_digits ty i dims.reverse x mem
  r.2.write out_0 i (wrapS ty.toBits r.1)

/-- The loop `for (index_t i = tid; i < n; i += tnum) body` of one thread, started at
`i`, with at most `fuel` evaluations of the loop test. -/
def where_kernel_loop {σ : Type} (ty : JitTypes) (body : Int → σ → σ) (n tnum : Int) :
    Nat → Int → σ → Option σ
  | 0, _, _ => none
  | fuel + 1, i, st =>
      if i < n then
        where_kernel_loop ty body n tnum fuel (wrapS ty.idxBits (i + tnum)) (body i st)
      else some st

/-- One thread of the launch: `tid = threadIdx.x + blockIdx.x * blockDim.x`,
`tnum = gridDim.x * blockDim.x`, then the loop. -/
def where_kernel_thread {σ : Type} (ty : JitTypes) (body : Int → σ → σ) (n : Int)
    (gridDim blockDim : Nat) (fuel : Nat) (blockIdx threadIdx : Nat) (st : σ) : Option σ :=
  let tid := wrapS intBits ((threadIdx : Int) + (blockIdx : Int) * (blockDim : Int))
  let tnum := wrapS intBits ((gridDim : Int) * (blockDim : Int))
  where_kernel_loop ty body n tnum fuel (wrapS ty.idxBits tid) st

/-- All threads of a launch `<<<gridDim, blockDim>>>`, block after block and thread after
thread. -/
def where_kernel_grid {σ : Type} (ty : JitTypes) (body : Int → σ → σ) (n : Int)
    (gridDim blockDim : Nat) (fuel : Nat) (st : σ) : Option σ :=
  (List.range gridDim).foldlM (fun s blockIdx =>
    (List.range blockDim).foldlM (fun s1 threadIdx =>
      where_kernel_thread ty body n gridDim blockDim fuel blockIdx threadIdx s1) s) st

/-- The kernel `where_kernel<<<gridDim, blockDim>>>(n, input, shape_0, out_0, ...)`. -/
def where_kernel (ty : JitTypes) (fuel : Nat) (gridDim blockDim : Nat) (n : Int) (input : Nat)
    (shape_0 : Int) (out_0 : Nat) (dims : List (Int × Nat)) (mem : Mem) : Option Mem :=
  where_kernel_grid ty (where_body ty input shape_0 out_0 dims) n gridDim blockDim fuel mem

/-- The launch parameter `thread_num = std::min(1024, num_nonzeros_h)`. -/
def thread_num (num_nonzeros_h : Int) : Int := min 1024 num_nonzeros_h

/-- The launch parameter `block_num = std::max(1, num_nonzeros_h/1024)`. -/
def block_num (num_nonzeros_h : Int) : Int := max 1 (Int.tdiv num_nonzeros_h 1024)

/-- Kernel arguments `cond->shape[j], outs[j]->ptr<To>()` for `j = j0, j0+1, ...`. -/
def kernel_args (ty : JitTypes) : Nat → List Nat → List (Int × Nat)
  | _, [] => []
  | j, s :: ss => (wrapS ty.idxBits (s : Int), j) :: kernel_args ty (j + 1) ss

/-- What `jit_run` leaves behind. -/
structure RunState where
  /-- host copy of the count read back after the reduction -/
  num_nonzeros_h : Int
  /-- device scalar, last written by the flagged select -/
  num_nonzeros : Int
  /-- shape of each output variable -/
  out_shapes : List (List Int)
  /-- launch configuration `(block_num, thread_num)` when the kernel was launched -/
  launched : Option (Int × Int)
  /-- buffers of the output variables -/
  mem : Mem

/-- The method `CubWhereOp::jit_run` on a condition of shape `shape` with elements `cond`, the output
buffers holding `mem` initially.  Output `j` owns buffer `j`.  A condition of rank zero has no
output `0` to receive the selection: the run has no result. -/
def jit_run {T : Type} [Zero T] [DecidableEq T] (ty : JitTypes) (fuel : Nat)
    (shape : List Nat) (cond : List T) (mem : Mem) : Option RunState :=
  let N := wrapS intBits (cond.length : Int)
  let itr := nonzero_itr cond
  let num_nonzeros_h := DeviceReduce_Sum itr N
  let out_temp := 0
  let out_shapes := (List.range shape.length).map (fun _ => [num_nonzeros_h])
  let selected := DeviceSelect_Flagged (counting_itr ty) itr N
  let mem1 := mem.writeList out_temp selected
  let num_nonzeros := wrapS intBits (selected.length : Int)
  match shape with
  | [] => none
  | shape_0 :: rest =>
    if num_nonzeros_h > 0 ∧ shape.length > 1 then
      let thread_num := thread_num num_nonzeros_h
      let block_num := block_num num_nonzeros_h
      (where_kernel ty fuel block_num.toNat thread_num.toNat num_nonzeros_h out_temp
          (wrapS ty.idxBits (shape_0 : Int)) 0 (kernel_args ty 1 rest) mem1).map
        (fun mem2 => ⟨num_nonzeros_h, num_nonzeros, out_shapes, some (block_num, thread_num), mem2⟩)
    else
      some ⟨num_nonzeros_h, num_nonzeros, out_shapes, none, mem1⟩

/-- Content of output variable `d` after the run: the slots its shape covers. -/
def RunState.stream (r : RunState) (d : Nat) : List Int :=
  (List.range r.num_nonzeros_h.toNat).map (fun (i : Nat) => r.mem.read d (i : Int))

/-- The memory that holds zero everywhere. -/
def zeroMem : Mem := ⟨fun _ _ => 0⟩

/-- Types of the usual instantiation: `To = int32`, `index_t = int32`. -/
def ty32 : JitTypes := ⟨32, 32⟩

theorem sum_flags_eq (p : Nat → Bool) (l : List Nat) :
    (l.map (fun i => if p i then (1 : Int) else 0)).sum = ((l.filter p).length : Int) := by
  induction l with
  | nil => simp
  | cons a l ih =>
    simp only [List.map_cons, List.sum_cons, ih, List.filter_cons]
    cases p a <;> simp
    omega

theorem nonzeroIdx_none {T : Type} [Zero T] [DecidableEq T] (cond : List T)
    (hzero : ∀ a ∈ cond, a = 0) (n : Nat) : (List.range n).filter (nonzero_itr cond) = [] := by
  apply List.filter_eq_nil_iff.2
  intro i _
  unfold nonzero_itr NonZeroOp
  have : cond.getD i 0 = 0 := by
    rcases Nat.lt_or_ge i cond.length with h | h
    · rw [List.getD_eq_getElem _ _ h]; exact hzero _ (List.getElem_mem h)
    · rw [List.getD_eq_default _ _ h]
  rw [this]
  simp

theorem exists_cons_of_rank {shape : List Nat} (h : 1 ≤ shape.length) :
    ∃ s0 rest, shape = s0 :: rest := by
  cases shape with
  | nil => simp at h
  | cons s0 rest => exact ⟨s0, rest, rfl⟩

theorem range_map_const {α : Type} (n : Nat) (a : α) :
    (List.range n).map (fun _ => a) = List.replicate n a := by
  induction n with
  | zero => rfl
  | succ n ih => rw [List.range_succ, List.map_append, ih, List.replicate_succ']; rfl

/-- C6. For every shape of rank at least one and every input with no non-zero element, the
empty input included: `jit_run` returns with `K = 0`, every one of the `D` output shapes is
`[0]`, every output stream is empty, and the kernel is not launched. -/
theorem all_zero_empty {T : Type} [Zero T] [DecidableEq T] (ty : JitTypes) (fuel : Nat)
    (shape : List Nat) (cond : List T) (mem : Mem)
    (hrank : 1 ≤ shape.length) (hzero : ∀ a ∈ cond, a = 0) :
    ∃ r, jit_run ty fuel shape cond mem = some r ∧
      r.num_nonzeros_h = 0 ∧
      r.out_shapes = List.replicate shape.length [0] ∧
      (∀ d, r.stream d = []) ∧
      r.launched = none := by
  obtain ⟨s0, rest, rfl⟩ := exists_cons_of_rank hrank
  have hsum : DeviceReduce_Sum (nonzero_itr cond) (wrapS intBits (cond.length : Int)) = 0 := by
    unfold DeviceReduce_Sum
    rw [sum_flags_eq, nonzeroIdx_none cond hzero]
    rfl
  unfold jit_run
  simp only [hsum]
  rw [if_neg (by omega)]
  refine ⟨_, rfl, rfl, ?_, ?_, rfl⟩
  · show (List.range (s0 :: rest).length).map (fun _ => [(0 : Int)]) = _
    rw [range_map_const]
  · intro d
    rfl

theorem all_zero_empty_witness :
    (1 ≤ [2, 3].length ∧ (∀ a ∈ [(0 : Int), 0, 0, 0, 0, 0], a = 0)) ∧
    ∃ r, jit_run ty32 0 [2, 3] [(0 : Int), 0, 0, 0, 0, 0] zeroMem = some r ∧
      r.num_nonzeros_h = 0 ∧
      r.out_shapes = List.replicate [2, 3].length [0] ∧
      (∀ d, r.stream d = []) ∧
      r.launched = none :=
  ⟨by decide,
   all_zero_empty ty32 0 [2, 3] [(0 : Int), 0, 0, 0, 0, 0] zeroMem (by decide) (by decide)⟩

end CubWhere
